import Mathlib

/-!
Verification of the generation-pipeline orchestrator and QA/repair subsystem
of the langgraph_system_generator repository, as a shallow embedding in Lean.

Source files embedded here:
- `src/langgraph_system_generator/generator/state.py`   (data model)
- `src/langgraph_system_generator/generator/graph.py`   (branch functions, loop wiring)
- `src/langgraph_system_generator/generator/nodes.py`   (stage functions)
- `src/langgraph_system_generator/generator/agents/qa_repair_agent.py` (cell-level QA checks)
- `src/langgraph_system_generator/generator/agents/requirements_analyst.py` (intake analysis)
- `src/langgraph_system_generator/qa/validators.py`     (notebook validator)
- `src/langgraph_system_generator/qa/repair.py`         (notebook repair agent)

Python strings are modelled as `String`; the scanning/replacing helpers used by
the source (`in`, `str.replace`, `str.count`, `str.split`, `str.strip`,
`str.title`, `sorted`, `", ".join`) are implemented below on `List Char` with
Python semantics (left-to-right, non-overlapping matches).
-/

namespace LgsGen

/-- `leadsWith pat s` is true when `pat` is an initial segment of `s`
(helper for Python substring search). -/
def leadsWith : List Char → List Char → Bool
  | [], _ => true
  | _ :: _, [] => false
  | p :: ps, c :: cs => p == c && leadsWith ps cs

/-- Python `pat in s` for a nonempty pattern: `pat` occurs somewhere in `s`. -/
def occursIn (pat : List Char) : List Char → Bool
  | [] => leadsWith pat []
  | c :: cs => leadsWith pat (c :: cs) || occursIn pat cs

/-- Python `s.count(pat)`: number of non-overlapping left-to-right occurrences.
Fuel-based recursion; `fuel = s.length` is always sufficient for nonempty `pat`. -/
def countOccFuel (pat : List Char) : Nat → List Char → Nat
  | 0, _ => 0
  | _ + 1, [] => 0
  | fuel + 1, c :: cs =>
    if leadsWith pat (c :: cs) then 1 + countOccFuel pat fuel ((c :: cs).drop pat.length)
    else countOccFuel pat fuel cs

/-- Python `s.replace(pat, rep)`: replace all non-overlapping left-to-right
occurrences. Fuel-based recursion; `fuel = s.length` suffices for nonempty `pat`. -/
def replaceFuel (pat rep : List Char) : Nat → List Char → List Char
  | 0, s => s
  | _ + 1, [] => []
  | fuel + 1, c :: cs =>
    if leadsWith pat (c :: cs) then rep ++ replaceFuel pat rep fuel ((c :: cs).drop pat.length)
    else c :: replaceFuel pat rep fuel cs

/-- Split a character list at each occurrence of the separator character
(Python `s.split(sep)` for a one-character separator). Always nonempty. -/
def splitChar (sep : Char) : List Char → List (List Char)
  | [] => [[]]
  | c :: cs =>
    match splitChar sep cs with
    | [] => [[]]
    | l :: ls => if c == sep then [] :: l :: ls else (c :: l) :: ls

/-- Join with a separator character (Python `sep.join`, inverse of `splitChar`). -/
def joinChar (sep : Char) : List (List Char) → List Char
  | [] => []
  | [l] => l
  | l :: ls => l ++ sep :: joinChar sep ls

/-- Python `s.strip()`: drop leading and trailing whitespace. -/
def pyStrip (s : List Char) : List Char :=
  ((s.dropWhile Char.isWhitespace).reverse.dropWhile Char.isWhitespace).reverse

/-- Python `s.rstrip()`: drop trailing whitespace. -/
def pyRstrip (s : List Char) : List Char :=
  (s.reverse.dropWhile Char.isWhitespace).reverse

/-- Python `s.title()`: uppercase each character starting an alphabetic run,
lowercase the other alphabetic characters. -/
def pyTitleGo : Bool → List Char → List Char
  | _, [] => []
  | prevAlpha, c :: cs =>
    if c.isAlpha then
      (if prevAlpha then c.toLower else c.toUpper) :: pyTitleGo true cs
    else
      c :: pyTitleGo false cs

/-- String-level wrappers used throughout the embedding. -/
def strHas (s pat : String) : Bool := occursIn pat.toList s.toList

def strCount (s pat : String) : Nat := countOccFuel pat.toList s.toList.length s.toList

def strReplace (s pat rep : String) : String :=
  ⟨replaceFuel pat.toList rep.toList s.toList.length s.toList⟩

def strSplit (s : String) (sep : Char) : List String :=
  (splitChar sep s.toList).map (fun l => ⟨l⟩)

/-- Join with a (possibly multi-character) separator (Python `sep.join(l)`). -/
def joinWithSep (sep : List Char) : List (List Char) → List Char
  | [] => []
  | [l] => l
  | l :: ls => l ++ sep ++ joinWithSep sep ls

def strJoin (sep : String) (l : List String) : String :=
  ⟨joinWithSep sep.toList (l.map String.toList)⟩

def strStrip (s : String) : String := ⟨pyStrip s.toList⟩

def strRstrip (s : String) : String := ⟨pyRstrip s.toList⟩

def strTitle (s : String) : String := ⟨pyTitleGo false s.toList⟩

def strLower (s : String) : String := ⟨s.toList.map Char.toLower⟩

/-- Lexicographic comparison of character lists by code point, i.e. Python's
string `<=`. -/
def charsLe : List Char → List Char → Bool
  | [], _ => true
  | _ :: _, [] => false
  | a :: as, b :: bs => a.toNat < b.toNat || (a == b && charsLe as bs)

def strLeB (x y : String) : Bool := charsLe x.toList y.toList

/-- Python `sorted` on strings (ascending lexicographic order), as an
insertion sort. -/
def insertSorted (x : String) : List String → List String
  | [] => [x]
  | y :: ys => if strLeB x y then x :: y :: ys else y :: insertSorted x ys

def sortStr (l : List String) : List String := l.foldr insertSorted []

/-!
Data model, from `generator/state.py`.
-/

/-- `Constraint` (state.py): a user constraint specification. -/
structure Constraint where
  type : String
  value : String
  priority : Int
deriving Repr, DecidableEq

/-- `DocSnippet` (state.py): a retrieved documentation snippet. The float
`relevance_score` is modelled as a rational; no claim depends on float
arithmetic, only on the field being carried along. -/
structure DocSnippet where
  content : String
  source : String
  relevance_score : Rat
  heading : Option String
deriving Repr, DecidableEq

/-- `NotebookPlan` (state.py). -/
structure NotebookPlan where
  title : String
  sections : List String
  cell_count_estimate : Int
  patterns_used : List String
  architecture_type : String
deriving Repr, DecidableEq

/-- `CellSpec` (state.py): metadata `Dict[str, Any]` is modelled as a
string-keyed association list (the code only ever stores/reads strings);
the Python field `section` is a Lean keyword, hence `sectionTag`. -/
structure CellSpec where
  cell_type : String
  content : String
  metadata : List (String × String)
  sectionTag : Option String
deriving Repr, DecidableEq

/-- `QAReport` (state.py): a quality-assurance report. -/
structure QAReport where
  check_name : String
  passed : Bool
  message : String
  suggestions : List String
deriving Repr, DecidableEq

/-- `GeneratorState` (state.py): the TypedDict state of the outer generator
graph. `Dict[str, Any]`-typed fields are modelled as string association lists
(their contents are never inspected by the code the claims concern).
`repair_attempts` is a natural number: every run initialises it to 0 and the
code only ever increments it. -/
structure GeneratorState where
  user_prompt : String
  uploaded_files : Option (List String)
  constraints : List Constraint
  selected_patterns : List (String × String)
  docs_context : List DocSnippet
  notebook_plan : Option NotebookPlan
  architecture_justification : String
  architecture_type : Option String
  workflow_design : Option (List (String × String))
  tools_plan : Option (List (List (String × String)))
  generated_cells : List CellSpec
  qa_reports : List QAReport
  repair_attempts : Nat
  artifacts_manifest : List (String × String)
  generation_complete : Bool
  error_message : Option String
deriving Repr, DecidableEq

/-!
Branch functions, from `generator/graph.py`. `settings.max_repair_attempts`
(utils/config.py, default 3) is passed explicitly as `maxAttempts`.
-/

/-- Routing decisions of `should_repair` (graph.py). -/
inductive RepairDecision
  | repair
  | package
  | fail
deriving Repr, DecidableEq

/-- Routing decisions of `check_repair_success` (graph.py). -/
inductive RepairCheck
  | retry_qa
  | fail
  | success
deriving Repr, DecidableEq

/-- `should_repair` (graph.py:25): decide if repair is needed based on QA
results. -/
def should_repair (maxAttempts : Nat) (state : GeneratorState) : RepairDecision :=
  let failed_reports := state.qa_reports.filter (fun r => !r.passed)
  if failed_reports.isEmpty then .package
  else if state.repair_attempts ≥ maxAttempts then .fail
  else .repair

/-- `check_repair_success` (graph.py:51): check if repair was successful and
decide the next action. -/
def check_repair_success (maxAttempts : Nat) (state : GeneratorState) : RepairCheck :=
  if state.repair_attempts < maxAttempts then .retry_qa
  else if state.generated_cells.length > 0 then .success
  else .fail

/-!
Cell-level QA checks, from `generator/agents/qa_repair_agent.py`
(`QARepairAgent.validate` and its three private checks). These are pure
functions of the cell list; they make no LLM call.
-/

namespace QARepairAgent

/-- `QARepairAgent._check_no_placeholders` (qa_repair_agent.py:42). -/
def check_no_placeholders (cells : List CellSpec) : QAReport :=
  let placeholders := ["TODO", "FIXME", "PLACEHOLDER"]
  let found_placeholders : List String :=
    (cells.enum.map (fun ci =>
      if ci.2.cell_type == "code" then
        (placeholders.filter (fun p => strHas ci.2.content p)).map
          (fun p => "Cell " ++ toString ci.1 ++ ": " ++ p)
      else [])).flatten
  if !found_placeholders.isEmpty then
    { check_name := "No Placeholders"
      passed := false
      message := "Found placeholders: " ++ strJoin ", " (found_placeholders.take 3)
      suggestions := ["Replace TODO comments with actual implementations",
                      "Remove FIXME markers"] }
  else
    { check_name := "No Placeholders"
      passed := true
      message := "No critical placeholders found"
      suggestions := [] }

/-- `QARepairAgent._check_basic_structure` (qa_repair_agent.py:70). -/
def check_basic_structure (cells : List CellSpec) : QAReport :=
  let has_markdown := cells.any (fun c => c.cell_type == "markdown")
  let has_code := cells.any (fun c => c.cell_type == "code")
  if !has_markdown || !has_code then
    { check_name := "Basic Structure"
      passed := false
      message := "Notebook missing markdown or code cells"
      suggestions := ["Add both markdown and code cells for proper structure"] }
  else
    { check_name := "Basic Structure"
      passed := true
      message := "Notebook has proper cell structure"
      suggestions := [] }

/-- `QARepairAgent._check_has_imports` (qa_repair_agent.py:89). -/
def check_has_imports (cells : List CellSpec) : QAReport :=
  let all_code := strJoin "\n"
    ((cells.filter (fun c => c.cell_type == "code")).map (fun c => c.content))
  let required_imports := ["langgraph", "StateGraph"]
  let missing_imports := required_imports.filter (fun imp => !strHas all_code imp)
  if !missing_imports.isEmpty then
    { check_name := "Required Imports"
      passed := false
      message := "Missing imports: " ++ strJoin ", " missing_imports
      suggestions := (missing_imports.take 2).map (fun imp => "Add import for " ++ imp) }
  else
    { check_name := "Required Imports"
      passed := true
      message := "All required imports present"
      suggestions := [] }

/-- `QARepairAgent.validate` (qa_repair_agent.py:20): run the three checks in
order. -/
def validate (cells : List CellSpec) : List QAReport :=
  [check_no_placeholders cells, check_basic_structure cells, check_has_imports cells]

end QARepairAgent

/-!
Stage functions of the validation/repair loop, from `generator/nodes.py`.
Each LangGraph node returns a partial update merged field-by-field into the
state; fields the node's returned dict does not mention keep their value, so
each node is embedded as a `GeneratorState` update touching exactly the
returned fields. (`qa_reports` and `repair_attempts` carry no reducer
annotation, so a returned value replaces the field.)
-/

/-- `static_qa_node` (nodes.py:200): run the cell-level checks and return
`qa_reports := existing_reports ++ fresh reports` — the node itself prepends
the accumulated reports, so batches accumulate additively. -/
def static_qa_node (state : GeneratorState) : GeneratorState :=
  let reports := QARepairAgent.validate state.generated_cells
  { state with qa_reports := state.qa_reports ++ reports }

/-- The fixed placeholder report produced by `runtime_qa_node` (nodes.py:229). -/
def runtime_check_report : QAReport :=
  { check_name := "Runtime Check"
    passed := true
    message := "Runtime checks placeholder (not yet implemented)"
    suggestions := [] }

/-- `runtime_qa_node` (nodes.py:218): appends a single always-passing
placeholder report. -/
def runtime_qa_node (state : GeneratorState) : GeneratorState :=
  { state with qa_reports := state.qa_reports ++ [runtime_check_report] }

/-- `repair_node` (nodes.py:239): calls `QARepairAgent.repair`, whose return
value (the cells, unchanged) is discarded, and returns only the incremented
`repair_attempts`. -/
def repair_node (state : GeneratorState) : GeneratorState :=
  { state with repair_attempts := state.repair_attempts + 1 }

/-- Python `repr` of a string as used by pydantic's model rendering
(quote escaping is irrelevant here: no claim inspects the manifest text). -/
def pyQuote (s : String) : String := "'" ++ s ++ "'"

/-- Python `str(...)` of the optional `NotebookPlan`, i.e. `"None"` or
pydantic's `field=value` rendering of the model. Only used to fill the
string-valued artifacts manifest, whose text no claim inspects. -/
def notebook_plan_str : Option NotebookPlan → String
  | none => "None"
  | some p =>
    "title=" ++ pyQuote p.title
      ++ " sections=[" ++ strJoin ", " (p.sections.map pyQuote) ++ "]"
      ++ " cell_count_estimate=" ++ toString p.cell_count_estimate
      ++ " patterns_used=[" ++ strJoin ", " (p.patterns_used.map pyQuote) ++ "]"
      ++ " architecture_type=" ++ pyQuote p.architecture_type

/-- `package_outputs_node` (nodes.py:268): builds the artifacts manifest and
sets `generation_complete := true` and `error_message := None`. -/
def package_outputs_node (state : GeneratorState) : GeneratorState :=
  let manifest : List (String × String) :=
    [("notebook_plan", notebook_plan_str state.notebook_plan),
     ("cell_count", toString state.generated_cells.length),
     ("architecture_type",
       (state.architecture_type.getD
         (((state.selected_patterns.filter (fun p => p.1 == "primary")).head?).elim
           "router" Prod.snd))),
     ("constraints_count", toString state.constraints.length)]
  { state with
      artifacts_manifest := manifest
      generation_complete := true
      error_message := none }

/-- One full validation pass (`static_qa` then `runtime_qa`), i.e. one trip
from the repair loop back to the conditional branch point. -/
def qa_pass (state : GeneratorState) : GeneratorState :=
  runtime_qa_node (static_qa_node state)

/-- Terminal outcome of the validation/repair portion of the graph:
either `package_outputs` ran (Packaged) or the graph hit `END` via a
`fail` routing decision (Failed), with the final state. -/
inductive Outcome
  | packaged (s : GeneratorState)
  | failed (s : GeneratorState)
deriving Repr, DecidableEq

/-- State carried by a terminal outcome. -/
def Outcome.state : Outcome → GeneratorState
  | .packaged s => s
  | .failed s => s

/-- The validation/repair loop of `create_generator_graph` (graph.py:104-123),
entered with the state as it stands just after `runtime_qa`:
`should_repair` routes to `package_outputs`, `END` (fail) or `repair`;
after `repair`, `check_repair_success` routes to `package_outputs`,
`END` (fail) or back to `static_qa` → `runtime_qa`. `fuel` bounds the number
of validation passes examined; `none` means the loop was still running. -/
def run_loop (maxAttempts : Nat) : Nat → GeneratorState → Option Outcome
  | 0, _ => none
  | fuel + 1, s =>
    match should_repair maxAttempts s with
    | .package => some (.packaged (package_outputs_node s))
    | .fail => some (.failed s)
    | .repair =>
      let s' := repair_node s
      match check_repair_success maxAttempts s' with
      | .success => some (.packaged (package_outputs_node s'))
      | .fail => some (.failed s')
      | .retry_qa => run_loop maxAttempts fuel (qa_pass s')

/-- Initial `GeneratorState` for a run, as constructed by the graph's callers
(tests/stub_run.py:117, tests/integration/test_generator_workflow.py:40):
`repair_attempts = 0`, `qa_reports = []`, `generation_complete = False`,
`error_message = None`. -/
def initial_state (prompt : String) : GeneratorState :=
  { user_prompt := prompt
    uploaded_files := none
    constraints := []
    selected_patterns := []
    docs_context := []
    notebook_plan := none
    architecture_justification := ""
    architecture_type := none
    workflow_design := none
    tools_plan := none
    generated_cells := []
    qa_reports := []
    repair_attempts := 0
    artifacts_manifest := []
    generation_complete := false
    error_message := none }

/-!
Notebook model, for `qa/validators.py` and `qa/repair.py`. An nbformat
notebook is its cell list; each cell has a type, a source text and a
string-keyed metadata mapping (the code only reads/writes the string-valued
`"section"` key).
-/

/-- A notebook cell as manipulated by the validator and repair agent. -/
structure NbCell where
  cell_type : String
  source : String
  metadata : List (String × String)
deriving Repr, DecidableEq

/-- A parsed notebook (`nbformat` node): its cell list. -/
structure Notebook where
  cells : List NbCell
deriving Repr, DecidableEq

/-- Python `metadata.get(key)`: first binding of the key, if any. -/
def metaGet (m : List (String × String)) (key : String) : Option String :=
  ((m.filter (fun p => p.1 == key)).head?).map Prod.snd

namespace NotebookValidator

/-- `NotebookValidator.PLACEHOLDER_PATTERNS` (validators.py:19). -/
def PLACEHOLDER_PATTERNS : List String :=
  ["TODO", "FIXME", "PLACEHOLDER", "...", "# Your code here", "pass  # implement"]

/-- `NotebookValidator.REQUIRED_SECTIONS` (validators.py:28). -/
def REQUIRED_SECTIONS : List String := ["setup", "config", "graph", "execution"]

/-- `NotebookValidator.check_no_placeholders` (validators.py:99). The function
reads the raw saved file and scans its text; `content` is that raw text. -/
def check_no_placeholders (content : String) : QAReport :=
  let found_placeholders :=
    (PLACEHOLDER_PATTERNS.filter (fun p => strHas content p)).map
      (fun p => p ++ " (" ++ toString (strCount content p) ++ "x)")
  if !found_placeholders.isEmpty then
    { check_name := "No Placeholders"
      passed := false
      message := "Found placeholders: " ++ strJoin ", " found_placeholders
      suggestions := ["Replace all TODO/FIXME markers with actual implementation",
                      "Remove ellipsis (...) placeholders",
                      "Complete all code sections marked for implementation"] }
  else
    { check_name := "No Placeholders"
      passed := true
      message := "No placeholders found in notebook"
      suggestions := [] }

/-- The set of truthy `"section"` metadata values collected by
`check_required_sections` (validators.py:166-169); Python's `if section:`
skips both a missing key and the empty string. -/
def presentSections (nb : Notebook) : List String :=
  (nb.cells.filterMap (fun c => metaGet c.metadata "section")).filter (fun s => s != "")

/-- `NotebookValidator.check_required_sections` (validators.py:145) on a
successfully read notebook. Python's `required_sections or REQUIRED_SECTIONS`
falls back to the default both for `None` and for an empty list. -/
def check_required_sections (nb : Notebook) (required_sections : Option (List String)) :
    QAReport :=
  let sections_to_check :=
    match required_sections with
    | none => REQUIRED_SECTIONS
    | some l => if l.isEmpty then REQUIRED_SECTIONS else l
  let present_sections := presentSections nb
  let missing_sections :=
    sortStr ((sections_to_check.eraseDups).filter (fun s => !present_sections.contains s))
  if !missing_sections.isEmpty then
    { check_name := "Required Sections"
      passed := false
      message := "Missing required sections: " ++ strJoin ", " missing_sections
      suggestions := ["Add cells with section metadata for: " ++ strJoin ", " missing_sections,
                      "Ensure minimum required sections are present"] }
  else
    { check_name := "Required Sections"
      passed := true
      message := "All required sections present: "
        ++ strJoin ", " (sortStr (present_sections.eraseDups))
      suggestions := [] }

end NotebookValidator

/-!
Notebook repair, from `qa/repair.py` (`NotebookRepairAgent`).
-/

namespace NotebookRepairAgent

/-- `NotebookRepairAgent.DEFAULT_MAX_ATTEMPTS` (repair.py:19). -/
def DEFAULT_MAX_ATTEMPTS : Nat := 3

/-- `re.search(pat ++ "(.+)", s)` for a literal pattern `pat`: the captured
group of the first position where the literal occurs followed by at least one
non-newline character (`.` does not match a newline); the group is greedy up
to the end of the line. -/
def searchCapture (pat : List Char) : List Char → Option (List Char)
  | [] => none
  | c :: cs =>
    if leadsWith pat (c :: cs) then
      let grp := ((c :: cs).drop pat.length).takeWhile (fun ch => ch ≠ '\n')
      if grp.isEmpty then searchCapture pat cs else some grp
    else searchCapture pat cs

def strSearchCapture (pat s : String) : Option String :=
  (searchCapture pat.toList s.toList).map (fun l => ⟨l⟩)

/-- Ordered placeholder replacement table of `_repair_placeholders`
(repair.py:99-105). -/
def placeholder_replacements : List (String × String) :=
  [("TODO", ""), ("FIXME", ""), ("PLACEHOLDER", ""),
   ("# Your code here", "pass"), ("pass  # implement", "pass")]

/-- Line filter of `_repair_placeholders` (repair.py:120-127): drop lines that
strip to a standalone ellipsis; the flag records whether any line was dropped. -/
def filterEllipsisLines : List (List Char) → List (List Char) × Bool
  | [] => ([], false)
  | l :: ls =>
    let rest := filterEllipsisLines ls
    let stripped := pyStrip l
    if stripped == "...".toList || stripped == "# ...".toList then (rest.1, true)
    else (l :: rest.1, rest.2)

/-- Blank-line collapse of `_repair_placeholders` (repair.py:132-134):
`while "\n\n\n" in modified: modified = modified.replace("\n\n\n", "\n\n")`.
Each pass removes at least one character, so `s.length` passes suffice. -/
def collapseBlankFuel : Nat → List Char → List Char
  | 0, s => s
  | fuel + 1, s =>
    if occursIn ['\n', '\n', '\n'] s then
      collapseBlankFuel fuel (replaceFuel ['\n', '\n', '\n'] ['\n', '\n'] s.length s)
    else s

/-- The per-code-cell source transformation of `_repair_placeholders`
(repair.py:109-136): apply the replacement table, drop standalone ellipsis
lines, collapse runs of blank lines; the flag records whether anything fired. -/
def repairSource (src : String) : String × Bool :=
  let step1 := placeholder_replacements.foldl
    (fun (acc : String × Bool) pr =>
      if strHas acc.1 pr.1 then (strReplace acc.1 pr.1 pr.2, true) else acc)
    (src, false)
  let lines := splitChar '\n' step1.1.toList
  let filtered := filterEllipsisLines lines
  let joined := joinChar '\n' filtered.1
  let collapsed := collapseBlankFuel joined.length joined
  (⟨collapsed⟩, step1.2 || filtered.2 || occursIn ['\n', '\n', '\n'] joined)

/-- The per-cell action of `_repair_placeholders` (repair.py:107-136): only
cells whose `cell_type` is `"code"` are touched. -/
def repairCell (c : NbCell) : NbCell × Bool :=
  if c.cell_type == "code" then
    let r := repairSource c.source
    ({ c with source := r.1 }, r.2)
  else (c, false)

/-- `NotebookRepairAgent._repair_placeholders` (repair.py:89). -/
def repair_placeholders (nb : Notebook) : Notebook × Bool :=
  let rc := nb.cells.map repairCell
  (⟨rc.map Prod.fst⟩, rc.any Prod.snd)

/-- Python `str.splitlines()` for `\n`-separated text (the only line
separator occurring in the sources at hand): like splitting on `'\n'` but
without a trailing empty line, and empty for the empty string. -/
def pySplitLines (s : String) : List (List Char) :=
  if s.isEmpty then []
  else
    let parts := splitChar '\n' s.toList
    if parts.getLast? == some [] then parts.dropLast else parts

/-- `re.match(r"^(\s*from\s+langgraph\.graph\s+import\s+)(.+)$", line)`
(repair.py:184): on success, the pair of group 1 (everything through the
whitespace after `import`) and group 2 (the rest of the line, nonempty). -/
def matchImportLine (l : List Char) : Option (List Char × List Char) :=
  let ws0 := l.takeWhile Char.isWhitespace
  let r0 := l.drop ws0.length
  if leadsWith "from".toList r0 then
    let r1 := r0.drop 4
    let ws1 := r1.takeWhile Char.isWhitespace
    if ws1.isEmpty then none
    else
      let r2 := r1.drop ws1.length
      if leadsWith "langgraph.graph".toList r2 then
        let r3 := r2.drop "langgraph.graph".length
        let ws2 := r3.takeWhile Char.isWhitespace
        if ws2.isEmpty then none
        else
          let r4 := r3.drop ws2.length
          if leadsWith "import".toList r4 then
            let r5 := r4.drop 6
            let ws3 := r5.takeWhile Char.isWhitespace
            if ws3.isEmpty then none
            else
              let names := r5.drop ws3.length
              if names.isEmpty then none
              else some (l.take (l.length - names.length), names)
          else none
      else none
  else none

/-- One step of the line loop of `_repair_imports` (repair.py:183-206),
returning the processed lines together with the final
`(needs_stategraph, needs_end, updated)` flags; the loop stops rewriting
lines once both needs are satisfied (`break`). -/
def importLinesLoop : List (List Char) → Bool → Bool → Bool →
    List (List Char) × Bool × Bool × Bool
  | [], nsg, nend, upd => ([], nsg, nend, upd)
  | l :: ls, nsg, nend, upd =>
    match matchImportLine l with
    | none =>
      let r := importLinesLoop ls nsg nend upd
      (l :: r.1, r.2)
    | some pn =>
      let names0 := ((splitChar ',' pn.2).map (fun n => pyStrip n)).filter
        (fun n => !n.isEmpty)
      let step1 :=
        if nsg && !names0.contains "StateGraph".toList then
          (names0 ++ ["StateGraph".toList], false, true)
        else (names0, nsg, upd)
      let step2 :=
        if nend && !step1.1.contains "END".toList then
          (step1.1 ++ ["END".toList], false, true)
        else (step1.1, nend, step1.2.2)
      let nsg' := step1.2.1
      let nend' := step2.2.1
      let upd' := step2.2.2
      let newLine := pn.1 ++ joinWithSep ", ".toList step2.1
      if !(nsg' || nend') then (newLine :: ls, nsg', nend', upd')
      else
        let r := importLinesLoop ls nsg' nend' upd'
        (newLine :: r.1, r.2)

/-- `NotebookRepairAgent._repair_imports` (repair.py:140). -/
def repair_imports (nb : Notebook) (report : QAReport) : Notebook × Bool :=
  match strSearchCapture "Missing required imports: " report.message with
  | none => (nb, false)
  | some grp =>
    let missing_imports := (strSplit grp ',').map strStrip
    match (nb.cells.enum.filter (fun ic => ic.2.cell_type == "code")).head? with
    | none => (nb, false)
    | some ic =>
      let cell := ic.2
      let source := cell.source
      let needs_stategraph :=
        missing_imports.any (fun imp => strHas (strLower imp) "langgraph")
          && !strHas source "StateGraph"
      let needs_end :=
        missing_imports.any (fun imp => strHas imp "END") && !strHas source "END"
      if !(needs_stategraph || needs_end) then (nb, false)
      else
        let r := importLinesLoop (pySplitLines source) needs_stategraph needs_end false
        let nsg := r.2.1
        let nend := r.2.2.1
        let missing_names :=
          (if nsg then ["StateGraph"] else []) ++ (if nend then ["END"] else [])
        let additions :=
          if !missing_names.isEmpty then
            ["from langgraph.graph " ++ "import " ++ strJoin ", " missing_names]
          else []
        let updated := r.2.2.2 || !missing_names.isEmpty
        if !updated then (nb, false)
        else
          let new_source : String := ⟨joinChar '\n' r.1⟩
          let new_source :=
            if !additions.isEmpty then
              if !new_source.isEmpty then
                strRstrip new_source ++ "\n" ++ strJoin "\n" additions
              else strJoin "\n" additions
            else new_source
          (⟨nb.cells.set ic.1 { cell with source := new_source }⟩, true)

/-- The placeholder cells appended for one missing section by
`_repair_sections` (repair.py:256-267): a markdown header cell and a code
placeholder cell, both tagged with the section. -/
def sectionCells (s : String) : List NbCell :=
  [{ cell_type := "markdown"
     source := "## " ++ strTitle s ++ "\n\nGenerated section placeholder."
     metadata := [("section", s)] },
   { cell_type := "code"
     source := "# Section implementation here\npass"
     metadata := [("section", s)] }]

/-- `NotebookRepairAgent._repair_sections` (repair.py:233). -/
def repair_sections (nb : Notebook) (report : QAReport) : Notebook × Bool :=
  match strSearchCapture "Missing required sections: " report.message with
  | none => (nb, false)
  | some grp =>
    let missing_sections := (strSplit grp ',').map strStrip
    (⟨nb.cells ++ (missing_sections.map sectionCells).flatten⟩,
      !missing_sections.isEmpty)

/-- The skeleton injected by `_repair_compilation` (repair.py:297-312),
`graph_template` in the source (stored there with a leading and a trailing
newline; the code always inserts `graph_template.strip()`). -/
def graph_template : String :=
  "\nfrom langgraph.graph " ++ "import StateGraph, END\nfrom typing " ++ "import TypedDict\n\nclass WorkflowState(TypedDict):\n    messages: list\n\ngraph = StateGraph(WorkflowState)\n\ndef placeholder_node(state: WorkflowState):\n    return state\n\ngraph.add_node(\"start\", placeholder_node)\ngraph.set_entry_point(\"start\")\ngraph.add_edge(\"start\", END)\n"

/-- Index scan of repair.py:325-331: the last code cell whose source mentions
`StateGraph`, if any. -/
def lastStateGraphCodeCell (cells : List (Nat × NbCell)) : Option (Nat × NbCell) :=
  (cells.filter (fun ic => ic.2.cell_type == "code" && strHas ic.2.source "StateGraph")).getLast?

/-- `NotebookRepairAgent._repair_compilation` (repair.py:272). -/
def repair_compilation (nb : Notebook) (report : QAReport) : Notebook × Bool :=
  if strHas report.message "No StateGraph construction found" then
    match (nb.cells.enum.filter
        (fun ic => metaGet ic.2.metadata "section" == some "graph")).head? with
    | none => (nb, false)
    | some ic =>
      let cell := ic.2
      if cell.cell_type == "code" && !strHas cell.source "StateGraph" then
        let existing_source := cell.source
        let new_source :=
          if !(strStrip existing_source).isEmpty then
            strRstrip existing_source ++ "\n\n" ++ strStrip graph_template
          else strStrip graph_template
        (⟨nb.cells.set ic.1 { cell with source := new_source }⟩, true)
      else (nb, false)
  else if strHas report.message "Graph compilation step (.compile()) not found" then
    match lastStateGraphCodeCell nb.cells.enum with
    | none => (nb, false)
    | some ic =>
      if !strHas ic.2.source ".compile()" then
        (⟨nb.cells.set ic.1
            { ic.2 with
                source := strRstrip ic.2.source ++ "\ncompiled_graph = graph.compile()" }⟩,
          true)
      else (nb, false)
  else (nb, false)

/-- The dispatch loop of `repair_notebook` (repair.py:63-73): fold the repair
rules over the failed reports, threading the notebook and the `repaired` flag. -/
def applyRepairs (nb : Notebook) (failed_reports : List QAReport) : Notebook × Bool :=
  failed_reports.foldl
    (fun acc report =>
      if report.check_name == "No Placeholders" then
        let r := repair_placeholders acc.1
        (r.1, r.2 || acc.2)
      else if report.check_name == "Required Imports" then
        let r := repair_imports acc.1 report
        (r.1, r.2 || acc.2)
      else if report.check_name == "Required Sections" then
        let r := repair_sections acc.1 report
        (r.1, r.2 || acc.2)
      else if report.check_name == "Graph Compilation" then
        let r := repair_compilation acc.1 report
        (r.1, r.2 || acc.2)
      else acc)
    (nb, false)

/-- Result of `repair_notebook`: the returned `(success, reports)` pair plus
the effects on the world — whether the notebook file was (successfully)
rewritten and with what content, and whether re-validation ran. -/
structure RepairOutcome where
  success : Bool
  reports : List QAReport
  written : Option Notebook
  revalidated : Bool
deriving Repr, DecidableEq

/-- `NotebookRepairAgent.repair_notebook` (repair.py:30). File effects are
made explicit: `readResult` is the outcome of reading/parsing the notebook
(`none` = the read raised), `writeOk` the outcome of `nbformat.write`, and
`revalidate` stands for `validator.validate_all` on the just-saved file
(that call mixes file I/O with Python `compile()`; no claim settled here
depends on its value). -/
def repair_notebook (max_attempts : Nat) (readResult : Option Notebook)
    (qa_reports : List QAReport) (attempt : Nat)
    (revalidate : Notebook → List QAReport) (writeOk : Bool) : RepairOutcome :=
  if attempt ≥ max_attempts then
    { success := false, reports := qa_reports, written := none, revalidated := false }
  else
    let failed_reports := qa_reports.filter (fun r => !r.passed)
    if failed_reports.isEmpty then
      { success := true, reports := qa_reports, written := none, revalidated := false }
    else
      match readResult with
      | none =>
        { success := false, reports := qa_reports, written := none, revalidated := false }
      | some nb =>
        let r := applyRepairs nb failed_reports
        if r.2 then
          if !writeOk then
            { success := false, reports := qa_reports, written := none, revalidated := false }
          else
            let new_reports := revalidate r.1
            { success := new_reports.all (fun rep => rep.passed)
              reports := new_reports
              written := some r.1
              revalidated := true }
        else
          { success := false, reports := qa_reports, written := none, revalidated := false }

end NotebookRepairAgent

/-!
Intake and retrieval stages, from `generator/nodes.py` and
`generator/agents/requirements_analyst.py`. The external collaborator calls
are made explicit arguments; the control flow around them is the code's.
-/

/-- The observable outcome of `self.llm.ainvoke(...)` followed by the
JSON-extraction block in `RequirementsAnalyst.analyze`
(requirements_analyst.py:53-77): the `ainvoke` call sits outside the
`try` block, so a raising collaborator is distinguished from a response
whose parsing fails (caught) or whose content is not a string. -/
inductive LLMResponse
  | raised (msg : String)
  | nonString
  | parseFailure
  | parsed (constraints : List Constraint)
deriving Repr, DecidableEq

/-- The fallback goal constraint of `RequirementsAnalyst.analyze`
(requirements_analyst.py:69-75): built from the first 200 characters of the
prompt. -/
def fallback_constraint (prompt : String) : Constraint :=
  { type := "goal"
    value := if prompt.length > 200 then ⟨prompt.toList.take 200⟩ else prompt
    priority := 5 }

/-- `RequirementsAnalyst.analyze` (requirements_analyst.py:21): an error value
models an exception propagating out of the method. Only
`json.JSONDecodeError`, `KeyError` and `TypeError` from the parsing block are
caught (degrading to the fallback goal constraint); an exception from the
`ainvoke` call itself propagates. A non-string content falls through to
`return []`. -/
def analyze (prompt : String) : LLMResponse → Except String (List Constraint)
  | .raised msg => .error msg
  | .nonString => .ok []
  | .parseFailure => .ok [fallback_constraint prompt]
  | .parsed cs => .ok cs

/-- `intake_node` (nodes.py:26): calls `analyze` with no exception handling of
its own, so an exception from `analyze` propagates out of the stage.
`constraints` carries an `operator.add` reducer, so the returned list is
appended to the state's. -/
def intake_node (llm : LLMResponse) (state : GeneratorState) :
    Except String GeneratorState :=
  (analyze state.user_prompt llm).map
    (fun cs => { state with constraints := state.constraints ++ cs })

/-- `rag_retrieval_node` (nodes.py:41): the whole retrieval interaction is
wrapped in `try/except Exception`, degrading to `docs_context = []` on any
failure. `docs_context` carries an `operator.add` reducer. -/
def rag_retrieval_node (retrieval : Except String (List DocSnippet))
    (state : GeneratorState) : GeneratorState :=
  match retrieval with
  | .ok docs => { state with docs_context := state.docs_context ++ docs }
  | .error _ => { state with docs_context := state.docs_context ++ [] }

/-!
Derived definitions and concrete fixtures used by the claim theorems.
-/

/-- The missing-section list computed by `check_required_sections` for the
default required-section list (validators.py:163-171): the default sections
absent from the cells' metadata, deduplicated and sorted. -/
def missingOf (nb : Notebook) : List String :=
  sortStr ((NotebookValidator.REQUIRED_SECTIONS.eraseDups).filter
    (fun s => !(NotebookValidator.presentSections nb).contains s))

/-- A source text on which `repairSource` can fire nothing: none of the
placeholder patterns occurs, no line strips to a standalone ellipsis, and no
run of three newlines occurs. -/
def sourceClean (src : String) : Bool :=
  NotebookRepairAgent.placeholder_replacements.all (fun pr => !strHas src pr.1) &&
  (splitChar '\n' src.toList).all
    (fun l => !(pyStrip l == "...".toList || pyStrip l == "# ...".toList)) &&
  !strHas src "\n\n\n"

/-- The searchable text of the saved notebook file: `check_no_placeholders`
reads the raw file (validators.py:110-111) and scans its whole text, which
contains every cell's source — markdown cells included (the placeholder
markers contain no characters that JSON escaping would alter). -/
def renderedText (nb : Notebook) : String :=
  strJoin "\n" (nb.cells.map (fun c => c.source))

/-- Concrete state at the post-validation branch point: one failing report,
one generated cell, no repair attempt spent yet. -/
def c1s : GeneratorState :=
  { initial_state "req" with
      qa_reports := [⟨"Runtime Check", false, "runtime failed", []⟩]
      generated_cells := [⟨"code", "print(1)", [], none⟩] }

/-- Exhausted state without generated cells. -/
def c2sA : GeneratorState := { initial_state "req" with repair_attempts := 3 }

/-- Exhausted state identical to `c2sA` except for `generated_cells`. -/
def c2sB : GeneratorState :=
  { initial_state "req" with
      repair_attempts := 3
      generated_cells := [⟨"code", "print(1)", [], none⟩] }

/-- Concrete state carrying a stale failing report from an earlier validation
pass together with cells on which every fresh check passes. -/
def c3s : GeneratorState :=
  { initial_state "req" with
      qa_reports := [⟨"No Placeholders", false, "Found placeholders: Cell 0: TODO",
        ["Replace TODO comments with actual implementations", "Remove FIXME markers"]⟩]
      generated_cells :=
        [⟨"markdown", "# Intro", [], none⟩,
         ⟨"code", "from langgraph.graph import StateGraph", [], none⟩] }

/-- A notebook tagged with exactly the four default sections of the code —
none of the spec's `configuration`, `core-construction`, `export`,
`troubleshooting`. -/
def nb4 : Notebook :=
  ⟨[⟨"markdown", "## Setup", [("section", "setup")]⟩,
    ⟨"code", "cfg = 1", [("section", "config")]⟩,
    ⟨"code", "graph = 2", [("section", "graph")]⟩,
    ⟨"code", "run()", [("section", "execution")]⟩]⟩

/-- A failed Required Sections report naming one missing section. -/
def c6rep : QAReport :=
  ⟨"Required Sections", false, "Missing required sections: setup",
   ["Add cells with section metadata for: setup",
    "Ensure minimum required sections are present"]⟩

/-- A notebook whose only placeholder marker sits in a markdown cell. -/
def nbMd : Notebook :=
  ⟨[⟨"markdown", "TODO: describe the graph", [("section", "setup")]⟩,
    ⟨"code", "print(1)", [("section", "setup")]⟩]⟩

/-- The report's check name dispatches to no repair rule (repair.py:65-73). -/
def noRepairRule (c : String) : Prop :=
  c ≠ "No Placeholders" ∧ c ≠ "Required Imports" ∧
  c ≠ "Required Sections" ∧ c ≠ "Graph Compilation"

/-- A token that the report-message round-trip preserves: nonempty and free
of commas, newlines and whitespace (every default section name qualifies). -/
def cleanToken (x : List Char) : Prop :=
  x ≠ [] ∧ ∀ c ∈ x, c ≠ ',' ∧ c ≠ '\n' ∧ ¬c.isWhitespace

/-!
General lemmas about the embedded pipeline, shared by the claim theorems.
-/

theorem filter_not_passed_eq_nil_iff (l : List QAReport) :
    l.filter (fun r => !r.passed) = [] ↔ ∀ r ∈ l, r.passed = true := by
  rw [List.filter_eq_nil_iff]
  simp

theorem should_repair_eq_package_iff (m : Nat) (s : GeneratorState) :
    should_repair m s = .package ↔ ∀ r ∈ s.qa_reports, r.passed = true := by
  rw [← filter_not_passed_eq_nil_iff]
  by_cases h1 : (s.qa_reports.filter (fun r => !r.passed)).isEmpty = true
  · simp [should_repair, h1, List.isEmpty_iff.mp h1]
  · have hne : s.qa_reports.filter (fun r => !r.passed) ≠ [] :=
      fun hnil => h1 (List.isEmpty_iff.mpr hnil)
    by_cases h2 : s.repair_attempts ≥ m <;>
      simp [should_repair, h1, h2, hne]

theorem should_repair_eq_fail_iff (m : Nat) (s : GeneratorState) :
    should_repair m s = .fail ↔
      s.qa_reports.filter (fun r => !r.passed) ≠ [] ∧ m ≤ s.repair_attempts := by
  by_cases h1 : (s.qa_reports.filter (fun r => !r.passed)).isEmpty = true
  · simp [should_repair, h1, List.isEmpty_iff.mp h1]
  · have hne : s.qa_reports.filter (fun r => !r.passed) ≠ [] :=
      fun hnil => h1 (List.isEmpty_iff.mpr hnil)
    by_cases h2 : s.repair_attempts ≥ m <;>
      simp [should_repair, h1, h2, hne, ge_iff_le]

theorem should_repair_eq_repair_iff (m : Nat) (s : GeneratorState) :
    should_repair m s = .repair ↔
      s.qa_reports.filter (fun r => !r.passed) ≠ [] ∧ s.repair_attempts < m := by
  by_cases h1 : (s.qa_reports.filter (fun r => !r.passed)).isEmpty = true
  · simp [should_repair, h1, List.isEmpty_iff.mp h1]
  · have hne : s.qa_reports.filter (fun r => !r.passed) ≠ [] :=
      fun hnil => h1 (List.isEmpty_iff.mpr hnil)
    by_cases h2 : s.repair_attempts ≥ m <;>
      simp [should_repair, h1, h2, hne] <;> omega

theorem check_repair_success_eq (m : Nat) (s : GeneratorState) :
    check_repair_success m s =
      if s.repair_attempts < m then .retry_qa
      else if 0 < s.generated_cells.length then .success
      else .fail := rfl

theorem qa_pass_repair_attempts (s : GeneratorState) :
    (qa_pass s).repair_attempts = s.repair_attempts := rfl

theorem repair_node_repair_attempts (s : GeneratorState) :
    (repair_node s).repair_attempts = s.repair_attempts + 1 := rfl

theorem package_outputs_node_repair_attempts (s : GeneratorState) :
    (package_outputs_node s).repair_attempts = s.repair_attempts := rfl

theorem run_loop_succ (m fuel : Nat) (s : GeneratorState) :
    run_loop m (fuel + 1) s =
      match should_repair m s with
      | .package => some (.packaged (package_outputs_node s))
      | .fail => some (.failed s)
      | .repair =>
        match check_repair_success m (repair_node s) with
        | .success => some (.packaged (package_outputs_node (repair_node s)))
        | .fail => some (.failed (repair_node s))
        | .retry_qa => run_loop m fuel (qa_pass (repair_node s)) := rfl

/-- Any terminal outcome of the loop keeps `repair_attempts` within the
configured bound, provided it was within the bound on entry. -/
theorem run_loop_attempts_le (m : Nat) :
    ∀ (fuel : Nat) (s : GeneratorState) (out : Outcome),
      run_loop m fuel s = some out → s.repair_attempts ≤ m →
      out.state.repair_attempts ≤ m := by
  intro fuel
  induction fuel with
  | zero => intro s out h _; simp [run_loop] at h
  | succ fuel ih =>
    intro s out h hle
    rw [run_loop_succ] at h
    rcases hsr : should_repair m s with _ | _ | _ <;> rw [hsr] at h
    · -- repair branch
      have hlt := ((should_repair_eq_repair_iff m s).mp hsr).2
      rcases hck : check_repair_success m (repair_node s) with _ | _ | _ <;>
        rw [hck] at h
      · exact ih _ _ h (by simp [qa_pass_repair_attempts, repair_node_repair_attempts]; omega)
      · cases h; simp [Outcome.state, repair_node_repair_attempts]; omega
      · cases h
        simp [Outcome.state, package_outputs_node_repair_attempts,
          repair_node_repair_attempts]
        omega
    · cases h; simpa [Outcome.state, package_outputs_node_repair_attempts] using hle
    · cases h; simpa [Outcome.state] using hle

/-- The loop reaches a terminal outcome within `m + 1 - repair_attempts`
validation passes: with `fuel` further passes available and
`m ≤ repair_attempts + fuel`, it does not run out of fuel. -/
theorem run_loop_total (m : Nat) :
    ∀ (fuel : Nat) (s : GeneratorState), m ≤ s.repair_attempts + fuel →
      (run_loop m (fuel + 1) s).isSome = true := by
  intro fuel
  induction fuel with
  | zero =>
    intro s hle
    rw [run_loop_succ]
    rcases hsr : should_repair m s with _ | _ | _
    · have hlt := ((should_repair_eq_repair_iff m s).mp hsr).2
      omega
    · rfl
    · rfl
  | succ fuel ih =>
    intro s hle
    rw [run_loop_succ]
    rcases hsr : should_repair m s with _ | _ | _
    · rcases hck : check_repair_success m (repair_node s) with _ | _ | _
      · exact ih (qa_pass (repair_node s))
          (by simp [qa_pass_repair_attempts, repair_node_repair_attempts]; omega)
      · rfl
      · rfl
    · rfl
    · rfl

/-!
Claim C1 — repair exhaustion.
-/

/-- C1, counterexample: with `max_repair_attempts = 1`, a run whose reports
still fail when `repair_attempts` reaches the maximum is routed to packaging
(not Failed): `generation_complete` is set to `true`, the failing report is
still in `qa_reports`, and `error_message` is `None`, not a failure summary. -/
theorem c1_counterexample :
    run_loop 1 2 c1s = some (.packaged (package_outputs_node (repair_node c1s))) ∧
    (package_outputs_node (repair_node c1s)).generation_complete = true ∧
    (package_outputs_node (repair_node c1s)).qa_reports.filter (fun r => !r.passed) ≠ [] ∧
    (package_outputs_node (repair_node c1s)).repair_attempts = 1 ∧
    (package_outputs_node (repair_node c1s)).error_message = none := by
  decide

/-- C1, amended: only the post-validation branch (`should_repair`) terminates
a still-failing exhausted run as Failed, and it does so leaving the state
untouched — `generation_complete` is not set and `error_message` is not
written (no failure summary exists anywhere in the code). The post-repair
branch (`check_repair_success`) instead routes an exhausted run to packaging
whenever at least one cell was generated, setting `generation_complete = true`
despite the still-failing reports. -/
theorem c1_amended :
    (∀ (m fuel : Nat) (s : GeneratorState),
        s.qa_reports.filter (fun r => !r.passed) ≠ [] →
        m ≤ s.repair_attempts →
        run_loop m (fuel + 1) s = some (.failed s)) ∧
    (∀ (m fuel : Nat) (s : GeneratorState),
        s.qa_reports.filter (fun r => !r.passed) ≠ [] →
        s.repair_attempts + 1 = m →
        s.generated_cells ≠ [] →
        run_loop m (fuel + 1) s =
            some (.packaged (package_outputs_node (repair_node s))) ∧
          (package_outputs_node (repair_node s)).generation_complete = true ∧
          (package_outputs_node (repair_node s)).error_message = none) := by
  constructor
  · intro m fuel s hfail hle
    rw [run_loop_succ, (should_repair_eq_fail_iff m s).mpr ⟨hfail, hle⟩]
  · intro m fuel s hfail heq hcells
    have h1 : should_repair m s = .repair :=
      (should_repair_eq_repair_iff m s).mpr ⟨hfail, by omega⟩
    have h2 : check_repair_success m (repair_node s) = .success := by
      rw [check_repair_success_eq, repair_node_repair_attempts]
      rw [if_neg (by omega)]
      have : 0 < (repair_node s).generated_cells.length :=
        List.length_pos.mpr hcells
      rw [if_pos this]
    rw [run_loop_succ, h1, h2]
    exact ⟨rfl, rfl, rfl⟩

/-- C1, witness for the amended theorem: both branches exercised at concrete
states (`max_repair_attempts = 2` resp. `3`). -/
theorem c1_amended_witness :
    run_loop 2 5 { c1s with repair_attempts := 2 } =
        some (.failed { c1s with repair_attempts := 2 }) ∧
    run_loop 3 1 { c1s with repair_attempts := 2 } =
        some (.packaged (package_outputs_node
          (repair_node { c1s with repair_attempts := 2 }))) :=
  ⟨c1_amended.1 2 4 _ (by decide) (by decide),
   (c1_amended.2 3 0 _ (by decide) (by decide) (by decide)).1⟩

/-!
Claim C2 — what the branch functions depend on.
-/

/-- C2, counterexample: two states agreeing on `qa_reports` and
`repair_attempts` (with the default `max_repair_attempts = 3` reached) on
which `check_repair_success` returns different routing decisions, because it
also consults `generated_cells`. -/
theorem c2_counterexample :
    c2sA.qa_reports = c2sB.qa_reports ∧
    c2sA.repair_attempts = c2sB.repair_attempts ∧
    check_repair_success 3 c2sA ≠ check_repair_success 3 c2sB := by
  decide

/-- C2, amended: `should_repair` depends only on `qa_reports` and
`repair_attempts`; `check_repair_success` depends only on `repair_attempts`
and `generated_cells` (it never reads `qa_reports`). -/
theorem c2_amended :
    (∀ (m : Nat) (s t : GeneratorState),
        s.qa_reports = t.qa_reports → s.repair_attempts = t.repair_attempts →
        should_repair m s = should_repair m t) ∧
    (∀ (m : Nat) (s t : GeneratorState),
        s.repair_attempts = t.repair_attempts → s.generated_cells = t.generated_cells →
        check_repair_success m s = check_repair_success m t) := by
  constructor
  · intro m s t h1 h2
    simp [should_repair, h1, h2]
  · intro m s t h1 h2
    simp [check_repair_success, h1, h2]

/-- C2, witness for the amended theorem: two concrete states differing in all
fields other than the consulted ones. -/
theorem c2_amended_witness :
    should_repair 3 (initial_state "a") =
        should_repair 3 { initial_state "b" with generation_complete := true } ∧
    check_repair_success 3 (initial_state "a") =
        check_repair_success 3 { initial_state "b" with generation_complete := true } :=
  ⟨c2_amended.1 3 _ _ rfl rfl, c2_amended.2 3 _ _ rfl rfl⟩

/-!
Claim C3 — report accumulation across validation passes.
-/

/-- C3, counterexample: after a fresh validation pass in which every report of
the most recent batch passes, the post-validation branch still does not route
to packaging, because the stale failing report from an earlier pass was kept
(reports are appended, not replaced). -/
theorem c3_counterexample :
    ((qa_pass c3s).qa_reports.drop c3s.qa_reports.length).all (fun r => r.passed) = true ∧
    should_repair 3 (qa_pass c3s) = .repair ∧
    should_repair 3 (qa_pass c3s) ≠ .package := by
  decide

/-- C3, amended: a validation pass appends its fresh batch to the accumulated
report list (`static_qa_node` prepends the existing reports, `runtime_qa_node`
appends its placeholder report), and the post-validation branch routes to
packaging exactly when every report in the whole accumulated list — including
batches of earlier passes — has `passed = true`. -/
theorem c3_amended :
    (∀ s : GeneratorState,
        (static_qa_node s).qa_reports =
          s.qa_reports ++ QARepairAgent.validate s.generated_cells) ∧
    (∀ s : GeneratorState,
        (runtime_qa_node s).qa_reports = s.qa_reports ++ [runtime_check_report]) ∧
    (∀ (m : Nat) (s : GeneratorState),
        should_repair m s = .package ↔ ∀ r ∈ s.qa_reports, r.passed = true) :=
  ⟨fun _ => rfl, fun _ => rfl, should_repair_eq_package_iff⟩

/-- C3, witness for the amended theorem: the packaging criterion evaluated on
a concrete all-passing state. -/
theorem c3_amended_witness :
    should_repair 3 { initial_state "req" with qa_reports := [runtime_check_report] } =
      .package :=
  (c3_amended.2.2 3 _).mpr (by decide)

/-!
Claim C8 — monotonic, bounded repair attempts and loop termination.
-/

/-- C8: `repair_attempts` starts at 0; `repair_node` is the only loop node
that changes it, by exactly +1; after `n` repair-loop iterations it equals
exactly `n` more than on entry; every terminal outcome respects the
configured bound; and from a fresh run the loop reaches a terminal outcome
within `maxAttempts + 1` validation passes. -/
theorem c8_attempts_invariants :
    (∀ prompt, (initial_state prompt).repair_attempts = 0) ∧
    (∀ s : GeneratorState, (repair_node s).repair_attempts = s.repair_attempts + 1) ∧
    (∀ s : GeneratorState, (static_qa_node s).repair_attempts = s.repair_attempts) ∧
    (∀ s : GeneratorState, (runtime_qa_node s).repair_attempts = s.repair_attempts) ∧
    (∀ s : GeneratorState, (package_outputs_node s).repair_attempts = s.repair_attempts) ∧
    (∀ (n : Nat) (s : GeneratorState),
        ((fun t => qa_pass (repair_node t))^[n] s).repair_attempts =
          s.repair_attempts + n) ∧
    (∀ (m fuel : Nat) (s : GeneratorState) (out : Outcome),
        run_loop m fuel s = some out → s.repair_attempts ≤ m →
        out.state.repair_attempts ≤ m) ∧
    (∀ (m : Nat) (s : GeneratorState), s.repair_attempts = 0 →
        (run_loop m (m + 1) s).isSome = true) := by
  refine ⟨fun _ => rfl, fun _ => rfl, fun _ => rfl, fun _ => rfl, fun _ => rfl,
    ?_, run_loop_attempts_le, ?_⟩
  · intro n
    induction n with
    | zero => intro s; simp
    | succ n ih =>
      intro s
      rw [Function.iterate_succ_apply', qa_pass_repair_attempts,
        repair_node_repair_attempts, ih]
      omega
  · intro m s h0
    exact run_loop_total m m s (by omega)

/-- C8, witness: the invariants applied at concrete inputs — two iterations
from a fresh state yield exactly 2 attempts, and a fresh run with
`max_repair_attempts = 1` both stays within the bound and terminates within
2 validation passes. -/
theorem c8_attempts_invariants_witness :
    ((fun t => qa_pass (repair_node t))^[2] (initial_state "req")).repair_attempts =
        (initial_state "req").repair_attempts + 2 ∧
    (Outcome.packaged (package_outputs_node (repair_node c1s))).state.repair_attempts ≤ 1 ∧
    (run_loop 1 (1 + 1) c1s).isSome = true := by
  refine ⟨c8_attempts_invariants.2.2.2.2.2.1 2 _, ?_, ?_⟩
  · exact c8_attempts_invariants.2.2.2.2.2.2.1 1 2 c1s _ (by decide) (by decide)
  · exact c8_attempts_invariants.2.2.2.2.2.2.2 1 c1s (by decide)

/-!
Claim C4 — degrade-not-abort on collaborator failure.
-/

/-- C4, counterexample: with a generative-model collaborator that fails (the
`ainvoke` call raises), the intake/constraint-extraction stage does not
complete — the exception propagates out of `intake_node`, so the run aborts
instead of reaching a terminal state. -/
theorem c4_counterexample :
    intake_node (.raised "LLM unavailable") (initial_state "req") =
      .error "LLM unavailable" := rfl

/-- C4, amended: the stage-level degradation only covers response-parsing
failures and retrieval failures — a generative-model response whose parsing
fails degrades to the fallback goal constraint, and any retrieval failure
degrades to "no context" — but an exception raised by the generative-model
call itself propagates out of the stage (the `ainvoke` call sits outside the
`try` block), so a failing collaborator aborts the run at intake. -/
theorem c4_amended :
    (∀ (msg : String) (s : GeneratorState),
        intake_node (.raised msg) s = .error msg) ∧
    (∀ s : GeneratorState,
        intake_node .parseFailure s =
          .ok { s with
                  constraints := s.constraints ++ [fallback_constraint s.user_prompt] }) ∧
    (∀ (msg : String) (s : GeneratorState),
        rag_retrieval_node (.error msg) s = s) := by
  refine ⟨fun _ _ => rfl, fun _ => rfl, fun msg s => ?_⟩
  simp [rag_retrieval_node]

/-- C4, witness for the amended theorem: the three behaviours at concrete
inputs. -/
theorem c4_amended_witness :
    intake_node (.raised "timeout") (initial_state "req") = .error "timeout" ∧
    intake_node .parseFailure (initial_state "req") =
      .ok { initial_state "req" with constraints := [fallback_constraint "req"] } ∧
    rag_retrieval_node (.error "index unavailable") (initial_state "req") =
      initial_state "req" := by
  refine ⟨c4_amended.1 "timeout" _, ?_, c4_amended.2.2 "index unavailable" _⟩
  have h := c4_amended.2.1 (initial_state "req")
  simpa [initial_state] using h

/-!
Claim C7 — the early-return contract of `repair_notebook`.
-/

/-- C7: `repair_notebook` returns immediately with `success = false` and the
reports unchanged whenever `attempt >= max_attempts`; past that guard it
returns `success = true` with the reports unchanged whenever no report has
`passed = false`; and past both guards it fails closed — `success = false`,
reports unchanged, no write — whenever the notebook cannot be read or parsed.
(The three guards are checked in this order, repair.py:48-61.) -/
theorem c7_repair_notebook_guards :
    (∀ (maxA att : Nat) (readR : Option Notebook) (qa : List QAReport)
        (reval : Notebook → List QAReport) (wok : Bool),
        maxA ≤ att →
        NotebookRepairAgent.repair_notebook maxA readR qa att reval wok =
          ⟨false, qa, none, false⟩) ∧
    (∀ (maxA att : Nat) (readR : Option Notebook) (qa : List QAReport)
        (reval : Notebook → List QAReport) (wok : Bool),
        att < maxA →
        (∀ r ∈ qa, r.passed = true) →
        NotebookRepairAgent.repair_notebook maxA readR qa att reval wok =
          ⟨true, qa, none, false⟩) ∧
    (∀ (maxA att : Nat) (qa : List QAReport)
        (reval : Notebook → List QAReport) (wok : Bool),
        att < maxA →
        (∃ r ∈ qa, r.passed = false) →
        NotebookRepairAgent.repair_notebook maxA none qa att reval wok =
          ⟨false, qa, none, false⟩) := by
  refine ⟨?_, ?_, ?_⟩
  · intro maxA att readR qa reval wok hle
    unfold NotebookRepairAgent.repair_notebook
    rw [if_pos hle]
  · intro maxA att readR qa reval wok hlt hpass
    unfold NotebookRepairAgent.repair_notebook
    rw [if_neg (by omega)]
    have h : (qa.filter (fun r => !r.passed)).isEmpty = true :=
      List.isEmpty_iff.mpr ((filter_not_passed_eq_nil_iff qa).mpr hpass)
    simp only [h, if_true]
  · intro maxA att qa reval wok hlt hfail
    unfold NotebookRepairAgent.repair_notebook
    rw [if_neg (by omega)]
    have h : (qa.filter (fun r => !r.passed)).isEmpty = false := by
      rcases hfail with ⟨r, hr, hp⟩
      rcases hE : (qa.filter (fun r => !r.passed)).isEmpty with _ | _
      · exact hE
      · exact absurd ((filter_not_passed_eq_nil_iff qa).mp (List.isEmpty_iff.mp hE) r hr)
          (by simp [hp])
    simp only [h, Bool.false_eq_true, if_false]

/-- C7, witness: the three guard behaviours at concrete inputs
(`max_attempts = 3` as `DEFAULT_MAX_ATTEMPTS`). -/
theorem c7_repair_notebook_guards_witness :
    NotebookRepairAgent.repair_notebook 3 (some ⟨[]⟩)
        [⟨"Runtime Check", false, "boom", []⟩] 3 (fun _ => []) true =
      ⟨false, [⟨"Runtime Check", false, "boom", []⟩], none, false⟩ ∧
    NotebookRepairAgent.repair_notebook 3 (some ⟨[]⟩)
        [⟨"Runtime Check", true, "ok", []⟩] 0 (fun _ => []) true =
      ⟨true, [⟨"Runtime Check", true, "ok", []⟩], none, false⟩ ∧
    NotebookRepairAgent.repair_notebook 3 none
        [⟨"Runtime Check", false, "boom", []⟩] 0 (fun _ => []) true =
      ⟨false, [⟨"Runtime Check", false, "boom", []⟩], none, false⟩ :=
  ⟨c7_repair_notebook_guards.1 3 3 _ _ _ _ (by decide),
   c7_repair_notebook_guards.2.1 3 0 _ _ _ _ (by decide) (by decide),
   c7_repair_notebook_guards.2.2 3 0 _ _ _ (by decide)
     ⟨⟨"Runtime Check", false, "boom", []⟩, by decide, rfl⟩⟩

/-!
Claim C9 — no rule fired: no write, no re-validation, reports unchanged.
-/

theorem applyRepairs_no_rule (failed : List QAReport)
    (h : ∀ r ∈ failed, noRepairRule r.check_name) :
    ∀ nb : Notebook, NotebookRepairAgent.applyRepairs nb failed = (nb, false) := by
  induction failed with
  | nil => intro nb; rfl
  | cons r rest ih =>
    intro nb
    obtain ⟨h1, h2, h3, h4⟩ := h r (List.mem_cons_self r rest)
    have step : NotebookRepairAgent.applyRepairs nb (r :: rest) =
        NotebookRepairAgent.applyRepairs nb rest := by
      unfold NotebookRepairAgent.applyRepairs
      rw [List.foldl_cons]
      simp [h1, h2, h3, h4]
    rw [step]
    exact ih (fun x hx => h x (List.mem_cons_of_mem r hx)) nb

/-- The failing reports provide a report with `passed = false`, so the
filtered list is nonempty. -/
theorem filter_not_passed_isEmpty_false (qa : List QAReport)
    (hfail : ∃ r ∈ qa, r.passed = false) :
    (qa.filter (fun r => !r.passed)).isEmpty = false := by
  rcases hfail with ⟨r, hr, hp⟩
  rcases hE : (qa.filter (fun r => !r.passed)).isEmpty with _ | _
  · exact hE
  · exact absurd ((filter_not_passed_eq_nil_iff qa).mp (List.isEmpty_iff.mp hE) r hr)
      (by simp [hp])

/-- C9: when none of the dispatched repair rules modifies the notebook — in
particular when every failed report is for a check with no repair rule, such
as `JSON Validity` or `Runtime Check` — `repair_notebook` returns
`success = false` with the input reports exactly as given, no file write
occurs, and no re-validation is performed. -/
theorem c9_no_rule_frame :
    (∀ (nb : Notebook) (failed : List QAReport),
        (∀ r ∈ failed, noRepairRule r.check_name) →
        NotebookRepairAgent.applyRepairs nb failed = (nb, false)) ∧
    (∀ (maxA att : Nat) (nb : Notebook) (qa : List QAReport)
        (reval : Notebook → List QAReport) (wok : Bool),
        att < maxA →
        (∃ r ∈ qa, r.passed = false) →
        (NotebookRepairAgent.applyRepairs nb (qa.filter (fun r => !r.passed))).2 = false →
        NotebookRepairAgent.repair_notebook maxA (some nb) qa att reval wok =
          ⟨false, qa, none, false⟩) := by
  refine ⟨fun nb failed h => applyRepairs_no_rule failed h nb, ?_⟩
  intro maxA att nb qa reval wok hlt hfail hnorep
  unfold NotebookRepairAgent.repair_notebook
  rw [if_neg (by omega)]
  simp only [filter_not_passed_isEmpty_false qa hfail, Bool.false_eq_true, if_false]
  simp only [hnorep, Bool.false_eq_true, if_false]

/-- C9, witness: failed `JSON Validity` and `Runtime Check` reports (no
repair rule) leave the notebook and report list untouched. -/
theorem c9_no_rule_frame_witness :
    NotebookRepairAgent.applyRepairs ⟨[⟨"code", "print(1)", []⟩]⟩
        [⟨"JSON Validity", false, "Invalid JSON: x", []⟩,
         ⟨"Runtime Check", false, "runtime failed", []⟩] =
      (⟨[⟨"code", "print(1)", []⟩]⟩, false) ∧
    NotebookRepairAgent.repair_notebook 3 (some ⟨[⟨"code", "print(1)", []⟩]⟩)
        [⟨"JSON Validity", false, "Invalid JSON: x", []⟩,
         ⟨"Runtime Check", false, "runtime failed", []⟩] 0 (fun _ => []) true =
      ⟨false,
       [⟨"JSON Validity", false, "Invalid JSON: x", []⟩,
        ⟨"Runtime Check", false, "runtime failed", []⟩], none, false⟩ :=
  ⟨c9_no_rule_frame.1 _ _ (by intro r hr; fin_cases hr <;> exact ⟨by decide, by decide, by decide, by decide⟩),
   c9_no_rule_frame.2 3 0 _ _ _ _ (by decide)
     ⟨⟨"JSON Validity", false, "Invalid JSON: x", []⟩, by decide, rfl⟩ (by decide)⟩

/-!
Claim C10 — placeholder repair touches only code cells.
-/

/-- C10: `_repair_placeholders` preserves the cell count and leaves every
non-code cell (in particular every markdown cell) entirely unchanged; and on
a concrete notebook whose only placeholder marker sits in a markdown cell,
the raw-text placeholder check detects the marker while placeholder repair
changes nothing (and reports that it fixed nothing). -/
theorem c10_markdown_frame :
    (∀ nb : Notebook,
        (NotebookRepairAgent.repair_placeholders nb).1.cells.length = nb.cells.length) ∧
    (∀ (nb : Notebook) (i : Nat) (h1 : i < nb.cells.length)
        (h2 : i < (NotebookRepairAgent.repair_placeholders nb).1.cells.length),
        (nb.cells.get ⟨i, h1⟩).cell_type ≠ "code" →
        (NotebookRepairAgent.repair_placeholders nb).1.cells.get ⟨i, h2⟩ =
          nb.cells.get ⟨i, h1⟩) ∧
    (NotebookValidator.check_no_placeholders (renderedText nbMd)).passed = false ∧
    NotebookRepairAgent.repair_placeholders nbMd = (nbMd, false) := by
  have hmap : ∀ nb : Notebook, (NotebookRepairAgent.repair_placeholders nb).1.cells =
      nb.cells.map (fun c => (NotebookRepairAgent.repairCell c).1) := by
    intro nb
    simp [NotebookRepairAgent.repair_placeholders, List.map_map, Function.comp]
  refine ⟨fun nb => by rw [hmap]; simp, ?_, by decide, by decide⟩
  intro nb i h1 h2 hnc
  simp only [List.get_eq_getElem] at hnc ⊢
  simp only [hmap nb, List.getElem_map]
  unfold NotebookRepairAgent.repairCell
  rw [if_neg (by simpa using hnc)]

/-- C10, witness: the frame property applied to the concrete notebook — the
markdown cell at position 0 is returned unchanged. -/
theorem c10_markdown_frame_witness :
    (NotebookRepairAgent.repair_placeholders nbMd).1.cells.get ⟨0, by decide⟩ =
      nbMd.cells.get ⟨0, by decide⟩ :=
  c10_markdown_frame.2.1 nbMd 0 (by decide) (by decide) (by decide)

/-!
Lemmas about the text helpers, needed for the report-message round-trip of
section repair (claims C5 and C6).
-/

theorem splitChar_cons (sep c : Char) (cs : List Char) :
    splitChar sep (c :: cs) =
      match splitChar sep cs with
      | [] => [[]]
      | l :: ls => if c == sep then [] :: l :: ls else (c :: l) :: ls := rfl

theorem splitChar_ne_nil (sep : Char) : ∀ s : List Char, splitChar sep s ≠ [] := by
  intro s
  induction s with
  | nil => simp [splitChar]
  | cons c cs ih =>
    rw [splitChar_cons]
    rcases h : splitChar sep cs with _ | ⟨l, ls⟩
    · exact absurd h ih
    · by_cases hc : c == sep <;> simp [hc]

theorem joinChar_splitChar (sep : Char) : ∀ s : List Char, joinChar sep (splitChar sep s) = s := by
  intro s
  induction s with
  | nil => rfl
  | cons c cs ih =>
    rcases h : splitChar sep cs with _ | ⟨l, ls⟩
    · exact absurd h (splitChar_ne_nil sep cs)
    · rw [h] at ih
      by_cases hc : c = sep
      · have hsplit : splitChar sep (c :: cs) = [] :: l :: ls := by
          rw [splitChar_cons, h]
          simp [hc]
        rw [hsplit]
        show sep :: joinChar sep (l :: ls) = c :: cs
        rw [ih, hc]
      · have hsplit : splitChar sep (c :: cs) = (c :: l) :: ls := by
          rw [splitChar_cons, h]
          simp [hc]
        rw [hsplit]
        rcases ls with _ | ⟨l2, ls2⟩
        · show c :: l = c :: cs
          have hl : joinChar sep [l] = l := rfl
          rw [hl] at ih
          rw [ih]
        · show (c :: l) ++ sep :: joinChar sep (l2 :: ls2) = c :: cs
          have h2 : joinChar sep (l :: l2 :: ls2) = l ++ sep :: joinChar sep (l2 :: ls2) := rfl
          rw [h2] at ih
          simp only [List.cons_append]
          rw [ih]

theorem splitChar_eq_single (sep : Char) :
    ∀ s : List Char, (∀ c ∈ s, c ≠ sep) → splitChar sep s = [s] := by
  intro s
  induction s with
  | nil => intro _; rfl
  | cons c cs ih =>
    intro h
    rw [splitChar_cons, ih (fun x hx => h x (List.mem_cons_of_mem c hx))]
    have hc : (c == sep) = false := by
      simpa using h c (List.mem_cons_self c cs)
    simp [hc]

theorem splitChar_append (sep : Char) (b : List Char) :
    ∀ a : List Char, (∀ c ∈ a, c ≠ sep) →
      splitChar sep (a ++ sep :: b) = a :: splitChar sep b := by
  intro a
  induction a with
  | nil =>
    intro _
    show splitChar sep (sep :: b) = [] :: splitChar sep b
    rcases h : splitChar sep b with _ | ⟨l, ls⟩
    · exact absurd h (splitChar_ne_nil sep b)
    · rw [splitChar_cons, h]
      simp
  | cons x a' ih =>
    intro h
    have hx : (x == sep) = false := by
      simpa using h x (List.mem_cons_self x a')
    show splitChar sep (x :: (a' ++ sep :: b)) = (x :: a') :: splitChar sep b
    rw [splitChar_cons, ih (fun c hc => h c (List.mem_cons_of_mem x hc))]
    simp [hx]

theorem leadsWith_append : ∀ p s : List Char, leadsWith p (p ++ s) = true := by
  intro p
  induction p with
  | nil => intro s; rfl
  | cons c cs ih => intro s; simpa [leadsWith] using ih s

theorem takeWhile_eq_self_of_all {p : Char → Bool} :
    ∀ l : List Char, (∀ c ∈ l, p c = true) → l.takeWhile p = l := by
  intro l
  induction l with
  | nil => intro _; rfl
  | cons c cs ih =>
    intro h
    rw [List.takeWhile_cons, if_pos (h c (List.mem_cons_self c cs)),
      ih (fun x hx => h x (List.mem_cons_of_mem c hx))]

theorem dropWhile_eq_self_of_all_not {p : Char → Bool} :
    ∀ l : List Char, (∀ c ∈ l, ¬p c = true) → l.dropWhile p = l := by
  intro l
  induction l with
  | nil => intro _; rfl
  | cons c cs _ =>
    intro h
    rw [List.dropWhile_cons]
    simp [h c (List.mem_cons_self c cs)]

theorem pyStrip_of_no_ws (x : List Char) (h : ∀ c ∈ x, ¬c.isWhitespace) :
    pyStrip x = x := by
  unfold pyStrip
  rw [dropWhile_eq_self_of_all_not x (by simpa using h)]
  rw [dropWhile_eq_self_of_all_not x.reverse (by simp; intro c hc; simpa using h c hc)]
  exact List.reverse_reverse x

theorem pyStrip_space_cons (x : List Char) (h : ∀ c ∈ x, ¬c.isWhitespace) :
    pyStrip (' ' :: x) = x := by
  unfold pyStrip
  rw [List.dropWhile_cons, if_pos (by decide)]
  rw [dropWhile_eq_self_of_all_not x (by simpa using h)]
  rw [dropWhile_eq_self_of_all_not x.reverse (by simp; intro c hc; simpa using h c hc)]
  exact List.reverse_reverse x

theorem searchCapture_self_prefix (pat rest : List Char)
    (hp : pat ≠ []) (hr : rest ≠ []) (hnl : ∀ c ∈ rest, c ≠ '\n') :
    NotebookRepairAgent.searchCapture pat (pat ++ rest) = some rest := by
  rcases hpat : pat with _ | ⟨p, ps⟩
  · exact absurd hpat hp
  · show NotebookRepairAgent.searchCapture (p :: ps) (p :: (ps ++ rest)) = some rest
    unfold NotebookRepairAgent.searchCapture
    have hl : leadsWith (p :: ps) (p :: (ps ++ rest)) = true := leadsWith_append (p :: ps) rest
    rw [hl]
    simp only [if_true]
    have hdrop : (p :: (ps ++ rest)).drop (p :: ps).length = rest := by
      have := List.drop_left (p :: ps) rest
      simpa using this
    rw [hdrop, takeWhile_eq_self_of_all rest (by intro c hc; simpa using hnl c hc)]
    simp [List.isEmpty_iff, hr]

theorem joinWithSep_ne_nil (sep : List Char) :
    ∀ l : List (List Char), l ≠ [] → (∀ x ∈ l, x ≠ []) → joinWithSep sep l ≠ [] := by
  intro l
  induction l with
  | nil => intro h _; exact absurd rfl h
  | cons x xs _ =>
    intro _ hx
    rcases xs with _ | ⟨y, ys⟩
    · exact hx x (List.mem_cons_self x [])
    · show x ++ sep ++ joinWithSep sep (y :: ys) ≠ []
      have : x ≠ [] := hx x (List.mem_cons_self x (y :: ys))
      simp [this]

theorem mem_joinWithSep (sep : List Char) :
    ∀ (l : List (List Char)) (c : Char), c ∈ joinWithSep sep l →
      c ∈ sep ∨ ∃ x ∈ l, c ∈ x := by
  intro l
  induction l with
  | nil => intro c hc; cases hc
  | cons x xs ih =>
    intro c hc
    rcases xs with _ | ⟨y, ys⟩
    · exact Or.inr ⟨x, List.mem_cons_self x [], hc⟩
    · have hc' : c ∈ x ++ sep ++ joinWithSep sep (y :: ys) := hc
      rcases List.mem_append.mp hc' with h1 | h2
      · rcases List.mem_append.mp h1 with ha | hb
        · exact Or.inr ⟨x, List.mem_cons_self x (y :: ys), ha⟩
        · exact Or.inl hb
      · rcases ih c h2 with ha | ⟨z, hz, hcz⟩
        · exact Or.inl ha
        · exact Or.inr ⟨z, List.mem_cons_of_mem x hz, hcz⟩

theorem pyStrip_spaces_append :
    ∀ (pre x : List Char), (∀ c ∈ pre, c = ' ') → (∀ c ∈ x, ¬c.isWhitespace) →
      pyStrip (pre ++ x) = x := by
  intro pre
  induction pre with
  | nil => intro x _ hx; simpa using pyStrip_of_no_ws x hx
  | cons p pre' ih =>
    intro x hpre hx
    have hp : p = ' ' := hpre p (List.mem_cons_self p pre')
    show pyStrip (p :: (pre' ++ x)) = x
    unfold pyStrip
    rw [List.dropWhile_cons, if_pos (by rw [hp]; decide)]
    have htail := ih x (fun c hc => hpre c (List.mem_cons_of_mem p hc)) hx
    unfold pyStrip at htail
    exact htail

/-- Splitting the `", "`-joined clean tokens back at commas and stripping
recovers the tokens, even under one leading space carried by the separator. -/
theorem split_strip_join_aux :
    ∀ (l : List (List Char)) (pre : List Char),
      l ≠ [] → (∀ x ∈ l, cleanToken x) → (∀ c ∈ pre, c = ' ') →
      (splitChar ',' (pre ++ joinWithSep ", ".toList l)).map pyStrip = l := by
  intro l
  induction l with
  | nil => intro pre h _ _; exact absurd rfl h
  | cons x xs ih =>
    intro pre _ hclean hpre
    have hx : cleanToken x := hclean x (List.mem_cons_self x xs)
    have hxnc : ∀ c ∈ pre ++ x, c ≠ ',' := by
      intro c hc
      rcases List.mem_append.mp hc with h1 | h2
      · rw [hpre c h1]; decide
      · exact (hx.2 c h2).1
    have hxnw : ∀ c ∈ x, ¬c.isWhitespace := fun c hc => (hx.2 c hc).2.2
    have hstrip : pyStrip (pre ++ x) = x := pyStrip_spaces_append pre x hpre hxnw
    rcases xs with _ | ⟨y, ys⟩
    · have hj : joinWithSep ", ".toList [x] = x := rfl
      rw [hj, splitChar_eq_single ',' (pre ++ x) hxnc]
      simp [hstrip]
    · have hjoin : joinWithSep ", ".toList (x :: y :: ys) =
          x ++ ", ".toList ++ joinWithSep ", ".toList (y :: ys) := rfl
      have hcomma : ", ".toList = [',', ' '] := rfl
      rw [hjoin]
      have hassoc : pre ++ (x ++ ", ".toList ++ joinWithSep ", ".toList (y :: ys)) =
          (pre ++ x) ++ ',' :: (' ' :: joinWithSep ", ".toList (y :: ys)) := by
        simp [hcomma]
      rw [hassoc, splitChar_append ',' _ (pre ++ x) hxnc]
      rw [List.map_cons, hstrip]
      have htail := ih [' '] (by simp) (fun z hz => hclean z (List.mem_cons_of_mem x hz))
        (by intro c hc; simpa using hc)
      have hsp : [' '] ++ joinWithSep ", ".toList (y :: ys) =
          ' ' :: joinWithSep ", ".toList (y :: ys) := rfl
      rw [hsp] at htail
      rw [htail]

theorem mem_insertSorted (x y : String) :
    ∀ l : List String, y ∈ insertSorted x l ↔ y = x ∨ y ∈ l := by
  intro l
  induction l with
  | nil => simp [insertSorted]
  | cons a as ih =>
    unfold insertSorted
    by_cases h : strLeB x a = true
    · simp [h]
    · rw [if_neg h]
      simp only [List.mem_cons, ih]
      tauto

theorem mem_sortStr (y : String) : ∀ l : List String, y ∈ sortStr l ↔ y ∈ l := by
  intro l
  induction l with
  | nil => simp [sortStr]
  | cons a as ih =>
    show y ∈ insertSorted a (sortStr as) ↔ y ∈ a :: as
    rw [mem_insertSorted, ih]
    simp

theorem insertSorted_ne_nil (x : String) : ∀ l : List String, insertSorted x l ≠ [] := by
  intro l
  cases l with
  | nil => simp [insertSorted]
  | cons a as =>
    unfold insertSorted
    by_cases h : strLeB x a = true <;> simp [h]

theorem sortStr_eq_nil_iff : ∀ l : List String, sortStr l = [] ↔ l = [] := by
  intro l
  cases l with
  | nil => simp [sortStr]
  | cons a as =>
    constructor
    · intro h
      exact absurd h (insertSorted_ne_nil a (sortStr as))
    · intro h; cases h

/-!
Claim C5 — the default required-section list and section repair.
-/

theorem required_sections_eraseDups :
    NotebookValidator.REQUIRED_SECTIONS.eraseDups = NotebookValidator.REQUIRED_SECTIONS := by
  decide

theorem contains_iff_mem {l : List String} {a : String} : l.contains a = true ↔ a ∈ l :=
  List.elem_iff

/-- String-level round-trip: splitting the joined token list at commas and
stripping recovers the tokens. -/
theorem strSplit_strip_join (l : List String) (h1 : l ≠ [])
    (h2 : ∀ x ∈ l, cleanToken x.toList) :
    (strSplit (strJoin ", " l) ',').map strStrip = l := by
  have hchar := split_strip_join_aux (l.map String.toList) []
    (by simpa using h1)
    (by intro x hx
        rcases List.mem_map.mp hx with ⟨s, hs, rfl⟩
        exact h2 s hs)
    (by intro c hc; cases hc)
  rw [List.nil_append] at hchar
  show ((splitChar ',' (joinWithSep ", ".toList (l.map String.toList))).map
      (fun n => (⟨n⟩ : String))).map strStrip = l
  rw [List.map_map]
  have hcomp : (strStrip ∘ fun n => (⟨n⟩ : String)) = fun n => (⟨pyStrip n⟩ : String) := rfl
  rw [hcomp]
  have hsplitmap : (splitChar ',' (joinWithSep ", ".toList (l.map String.toList))).map
      (fun n => (⟨pyStrip n⟩ : String)) =
      ((splitChar ',' (joinWithSep ", ".toList (l.map String.toList))).map pyStrip).map
        (fun n => (⟨n⟩ : String)) := by
    rw [List.map_map]
    rfl
  rw [hsplitmap, hchar, List.map_map]
  have hid : ((fun n => (⟨n⟩ : String)) ∘ String.toList) = id := rfl
  rw [hid, List.map_id]

/-- Every section name the default check can report missing is one of the
four default names, hence a clean token. -/
theorem missingOf_clean (nb : Notebook) :
    ∀ x ∈ missingOf nb, cleanToken x.toList := by
  intro x hx
  have hx1 := (mem_sortStr x _).mp hx
  have hx2 := (List.mem_filter.mp hx1).1
  rw [required_sections_eraseDups] at hx2
  fin_cases hx2 <;> exact ⟨by decide, by decide⟩

theorem check_required_sections_none_failed (nb : Notebook) (h : missingOf nb ≠ []) :
    NotebookValidator.check_required_sections nb none =
      ⟨"Required Sections", false,
       "Missing required sections: " ++ strJoin ", " (missingOf nb),
       ["Add cells with section metadata for: " ++ strJoin ", " (missingOf nb),
        "Ensure minimum required sections are present"]⟩ := by
  have hie : (!(missingOf nb).isEmpty) = true := by
    rcases hm : missingOf nb with _ | _
    · exact absurd hm h
    · rfl
  unfold missingOf at hie
  simp only [NotebookValidator.check_required_sections, hie, if_true]
  rfl

theorem check_required_sections_none_passed (nb : Notebook) (h : missingOf nb = []) :
    NotebookValidator.check_required_sections nb none =
      ⟨"Required Sections", true,
       "All required sections present: "
         ++ strJoin ", " (sortStr ((NotebookValidator.presentSections nb).eraseDups)),
       []⟩ := by
  have hie : (!(missingOf nb).isEmpty) = false := by
    rw [h]
    rfl
  unfold missingOf at hie
  simp only [NotebookValidator.check_required_sections, hie, Bool.false_eq_true, if_false]

/-- C5, counterexample: a notebook tagged with only the code's four default
sections passes `check_required_sections` under the default list, although
four of the six sections the claim names are absent — so passing does not
require the claimed six sections. -/
theorem c5_counterexample :
    (NotebookValidator.check_required_sections nb4 none).passed = true ∧
    "configuration" ∉ NotebookValidator.presentSections nb4 ∧
    "core-construction" ∉ NotebookValidator.presentSections nb4 ∧
    "export" ∉ NotebookValidator.presentSections nb4 ∧
    "troubleshooting" ∉ NotebookValidator.presentSections nb4 := by
  decide

/-- C5, amended: the validator's default required-section list consists of
the four sections `setup`, `config`, `graph`, `execution`; invoked without a
custom list, `check_required_sections` passes an artifact iff every one of
these four appears among the cells' truthy section metadata; and section
repair appends, per missing one of these four, one markdown cell and one code
cell tagged with that section. -/
theorem c5_default_sections :
    NotebookValidator.REQUIRED_SECTIONS = ["setup", "config", "graph", "execution"] ∧
    (∀ nb : Notebook,
        (NotebookValidator.check_required_sections nb none).passed = true ↔
          ∀ sec ∈ NotebookValidator.REQUIRED_SECTIONS,
            sec ∈ NotebookValidator.presentSections nb) ∧
    (∀ nb : Notebook, missingOf nb ≠ [] →
        NotebookRepairAgent.repair_sections nb
            (NotebookValidator.check_required_sections nb none) =
          (⟨nb.cells ++ ((missingOf nb).map NotebookRepairAgent.sectionCells).flatten⟩,
            true)) := by
  refine ⟨rfl, ?_, ?_⟩
  · intro nb
    have hpm : (NotebookValidator.check_required_sections nb none).passed = true ↔
        missingOf nb = [] := by
      rcases hm : missingOf nb with _ | ⟨a, as⟩
      · rw [check_required_sections_none_passed nb hm]
        simp
      · rw [check_required_sections_none_failed nb (by rw [hm]; simp)]
        simp [hm]
    rw [hpm]
    unfold missingOf
    rw [sortStr_eq_nil_iff, List.filter_eq_nil_iff, required_sections_eraseDups]
    constructor
    · intro h sec hsec
      have := h sec hsec
      simp only [Bool.not_eq_true', Bool.not_eq_false] at this
      exact contains_iff_mem.mp this
    · intro h a ha
      simp only [Bool.not_eq_true', Bool.not_eq_false]
      exact contains_iff_mem.mpr (h a ha)
  · intro nb h
    rw [check_required_sections_none_failed nb h]
    unfold NotebookRepairAgent.repair_sections
    have htok : ∀ x ∈ (missingOf nb).map String.toList, x ≠ [] := by
      intro x hx
      rcases List.mem_map.mp hx with ⟨s, hs, rfl⟩
      exact (missingOf_clean nb s hs).1
    have hjoin_ne : (strJoin ", " (missingOf nb)).toList ≠ [] := by
      show joinWithSep ", ".toList ((missingOf nb).map String.toList) ≠ []
      exact joinWithSep_ne_nil _ _ (by simpa using h) htok
    have hjoin_nl : ∀ c ∈ (strJoin ", " (missingOf nb)).toList, c ≠ '\n' := by
      intro c hc
      rcases mem_joinWithSep ", ".toList ((missingOf nb).map String.toList) c hc with
        hsep | ⟨x, hxm, hcx⟩
      · fin_cases hsep <;> decide
      · rcases List.mem_map.mp hxm with ⟨s, hs, rfl⟩
        exact ((missingOf_clean nb s hs).2 c hcx).2.1
    have hsearch : NotebookRepairAgent.strSearchCapture "Missing required sections: "
        ("Missing required sections: " ++ strJoin ", " (missingOf nb)) =
        some (strJoin ", " (missingOf nb)) := by
      unfold NotebookRepairAgent.strSearchCapture
      have happ : ("Missing required sections: " ++ strJoin ", " (missingOf nb)).toList =
          "Missing required sections: ".toList ++ (strJoin ", " (missingOf nb)).toList := by
        simp [String.toList, String.data_append]
      rw [happ, searchCapture_self_prefix _ _ (by decide) hjoin_ne hjoin_nl]
      rfl
    rw [hsearch]
    simp only [strSplit_strip_join (missingOf nb) h (missingOf_clean nb)]
    rcases hm : missingOf nb with _ | ⟨a, as⟩
    · exact absurd hm h
    · simp [hm]

/-- C5, witness: on the empty notebook all four default sections are missing,
and repair appends exactly the eight cells for them; `nb4` passes the check. -/
theorem c5_default_sections_witness :
    NotebookRepairAgent.repair_sections ⟨[]⟩
        (NotebookValidator.check_required_sections ⟨[]⟩ none) =
      (⟨(["config", "execution", "graph", "setup"].map
          NotebookRepairAgent.sectionCells).flatten⟩, true) ∧
    (NotebookValidator.check_required_sections nb4 none).passed = true := by
  constructor
  · have hm : missingOf (⟨[]⟩ : Notebook) = ["config", "execution", "graph", "setup"] := by
      decide
    have h := c5_default_sections.2.2 ⟨[]⟩ (by rw [hm]; simp)
    rw [hm] at h
    simpa using h
  · exact (c5_default_sections.2.1 nb4).mpr (by decide)

/-!
Claim C6 — idempotence of the repair rules.
-/

theorem filterEllipsisLines_all_kept (ls : List (List Char))
    (h : ∀ l ∈ ls,
      (pyStrip l == "...".toList || pyStrip l == "# ...".toList) = false) :
    NotebookRepairAgent.filterEllipsisLines ls = (ls, false) := by
  induction ls with
  | nil => rfl
  | cons l ls ih =>
    unfold NotebookRepairAgent.filterEllipsisLines
    rw [ih (fun x hx => h x (List.mem_cons_of_mem l hx))]
    have hl := h l (List.mem_cons_self l ls)
    simp only [hl, Bool.false_eq_true, if_false]

theorem collapseBlankFuel_id (n : Nat) (s : List Char)
    (h : occursIn ['\n', '\n', '\n'] s = false) :
    NotebookRepairAgent.collapseBlankFuel n s = s := by
  cases n with
  | zero => rfl
  | succ n =>
    unfold NotebookRepairAgent.collapseBlankFuel
    rw [h]
    simp

theorem repairSource_clean (src : String) (h : sourceClean src = true) :
    NotebookRepairAgent.repairSource src = (src, false) := by
  unfold sourceClean at h
  rw [Bool.and_eq_true, Bool.and_eq_true] at h
  obtain ⟨⟨h1, h2⟩, h3⟩ := h
  have hall := List.all_eq_true.mp h1
  have p1 : strHas src "TODO" = false := by
    simpa using hall ("TODO", "") (by decide)
  have p2 : strHas src "FIXME" = false := by
    simpa using hall ("FIXME", "") (by decide)
  have p3 : strHas src "PLACEHOLDER" = false := by
    simpa using hall ("PLACEHOLDER", "") (by decide)
  have p4 : strHas src "# Your code here" = false := by
    simpa using hall ("# Your code here", "pass") (by decide)
  have p5 : strHas src "pass  # implement" = false := by
    simpa using hall ("pass  # implement", "pass") (by decide)
  have hlines := List.all_eq_true.mp h2
  have hocc : occursIn ['\n', '\n', '\n'] src.toList = false := by
    have : strHas src "\n\n\n" = false := by simpa using h3
    simpa using this
  unfold NotebookRepairAgent.repairSource
  simp only [NotebookRepairAgent.placeholder_replacements, List.foldl_cons, List.foldl_nil,
    p1, p2, p3, p4, p5, Bool.false_eq_true, if_false]
  rw [filterEllipsisLines_all_kept _ (fun l hl => by simpa using hlines l hl)]
  rw [joinChar_splitChar]
  rw [collapseBlankFuel_id _ _ (by exact hocc)]
  have hocc2 : occursIn ['\n', '\n', '\n'] src.data = false := hocc
  simp [hocc, hocc2]

theorem repair_placeholders_clean (nb : Notebook)
    (h : ∀ c ∈ nb.cells, c.cell_type = "code" → sourceClean c.source = true) :
    NotebookRepairAgent.repair_placeholders nb = (nb, false) := by
  have hcell : ∀ c ∈ nb.cells, NotebookRepairAgent.repairCell c = (c, false) := by
    intro c hc
    unfold NotebookRepairAgent.repairCell
    by_cases ht : (c.cell_type == "code") = true
    · rw [if_pos ht, repairSource_clean c.source (h c hc (by simpa using ht))]
    · rw [if_neg ht]
  unfold NotebookRepairAgent.repair_placeholders
  rw [List.map_congr_left hcell]
  show (⟨(nb.cells.map (fun a => (a, false))).map Prod.fst⟩,
      (nb.cells.map (fun a => (a, false))).any Prod.snd) = (nb, false)
  have hany : ∀ l : List NbCell, (l.map (fun a => (a, false))).any Prod.snd = false := by
    intro l
    induction l with
    | nil => rfl
    | cons x xs ih => simpa using ih
  rw [hany, List.map_map]
  have hid : (Prod.fst ∘ fun a : NbCell => (a, false)) = id := rfl
  rw [hid, List.map_id]

/-- C6, counterexample: re-applying the section-repair rule with the same
failed Required Sections report is not a no-op — it appends the two placeholder
cells for the reported section a second time. -/
theorem c6_counterexample :
    (NotebookRepairAgent.repair_sections
        (NotebookRepairAgent.repair_sections ⟨[]⟩ c6rep).1 c6rep).1 ≠
      (NotebookRepairAgent.repair_sections ⟨[]⟩ c6rep).1 := by
  decide

/-- C6, amended: the repair rules are only guardedly idempotent.
Placeholder repair is a no-op exactly on notebooks whose code cells are
already clean (no placeholder pattern, no standalone ellipsis line, no triple
newline) — re-running it right after a first pass is not always a no-op,
since a removal can expose a new marker. Section repair consults only the
report message: it is a no-op for any report without a
`Missing required sections:` payload (e.g. a fresh passing report), but
re-invoked with the same stale failed report it appends two further cells per
listed section every time. -/
theorem c6_guarded_idempotence :
    (∀ nb : Notebook,
        (∀ c ∈ nb.cells, c.cell_type = "code" → sourceClean c.source = true) →
        NotebookRepairAgent.repair_placeholders nb = (nb, false)) ∧
    (∀ (nb : Notebook) (rep : QAReport),
        NotebookRepairAgent.strSearchCapture "Missing required sections: " rep.message =
          none →
        NotebookRepairAgent.repair_sections nb rep = (nb, false)) ∧
    (∀ (nb : Notebook) (rep : QAReport) (grp : String),
        NotebookRepairAgent.strSearchCapture "Missing required sections: " rep.message =
          some grp →
        (NotebookRepairAgent.repair_sections nb rep).1.cells.length =
          nb.cells.length + 2 * (strSplit grp ',').length) := by
  refine ⟨repair_placeholders_clean, ?_, ?_⟩
  · intro nb rep hnone
    unfold NotebookRepairAgent.repair_sections
    rw [hnone]
  · intro nb rep grp hsome
    unfold NotebookRepairAgent.repair_sections
    rw [hsome]
    have hlen : ∀ l : List String,
        ((l.map NotebookRepairAgent.sectionCells).flatten).length = 2 * l.length := by
      intro l
      induction l with
      | nil => rfl
      | cons x xs ih =>
        simp only [List.map_cons, List.flatten_cons, List.length_append, ih,
          List.length_cons]
        simp [NotebookRepairAgent.sectionCells]
        omega
    simp only [List.length_append, hlen, List.length_map]

/-- C6, witness for the guarded-idempotence theorem: a clean code cell is left
unchanged, a passing report is a no-op for section repair, and the stale
failed report appends exactly two cells. -/
theorem c6_guarded_idempotence_witness :
    NotebookRepairAgent.repair_placeholders ⟨[⟨"code", "print(1)", []⟩]⟩ =
      (⟨[⟨"code", "print(1)", []⟩]⟩, false) ∧
    NotebookRepairAgent.repair_sections ⟨[]⟩
        ⟨"Required Sections", true, "All required sections present: setup", []⟩ =
      (⟨[]⟩, false) ∧
    (NotebookRepairAgent.repair_sections ⟨[]⟩ c6rep).1.cells.length = 2 := by
  refine ⟨c6_guarded_idempotence.1 _ ?_, c6_guarded_idempotence.2.1 _ _ (by decide), ?_⟩
  · intro c hc
    fin_cases hc
    intro _
    decide
  · have h := c6_guarded_idempotence.2.2 ⟨[]⟩ c6rep "setup" (by decide)
    rw [show (strSplit "setup" ',').length = 1 from by decide] at h
    simpa using h

end LgsGen
